import Mathlib

/-!
Verification development for the finnlang execution pipeline
(src/backend/src: lexer.rs, parser.rs, ast.rs, interpreter.rs, lib.rs).

The Rust sources are shallowly embedded:
* `i64` values are modelled as unbounded `Int` (no claim exercises overflow);
  the one place where the `i64 → usize` cast matters (array indexing) uses an
  explicit wrap modulo 2^64 (`asUsize`).
* `f64` payloads are modelled as `Rat`; no claim depends on floating-point
  rounding or formatting, only on which operand shapes are accepted and on
  the zero-divisor test.
* Rust panics, which `lib.rs` catches at the boundary with
  `panic::catch_unwind`, are modelled as the `RtErr.fatal` error of an
  `Except` monad threaded through every phase.
* The interpreter and parser contain genuinely non-terminating loops
  (`while (true) { }`), so every recursive function takes an explicit fuel
  argument; exhausting fuel yields the distinguished error `RtErr.outOfFuel`,
  which models divergence (a real run would simply not return).
* `HashMap<String, _>` is modelled as an association list with first-match
  lookup and a cons-based insert, which agrees with the map observationally
  (`get`/`contains_key` after `insert`).
-/

-- ast.rs: `pub enum Type` (renamed `Ty`; `Type` is a Lean keyword)
inductive Ty
  | int
  | bool
  | string
  | double
deriving DecidableEq, Repr

-- ast.rs: `pub enum Expr`
inductive Expr
  | Number (n : Int)
  | Bool (b : Bool)
  | StrLiteral (s : String)
  | Double (d : Rat)
  | Var (name : String)
  | FunctionCall (name : String) (args : List Expr)
  | Add (l r : Expr)
  | Sub (l r : Expr)
  | Mul (l r : Expr)
  | Div (l r : Expr)
  | Mod (l r : Expr)
  | ArrayLiteral (elems : List Expr)
  | Index (arr idx : Expr)
  | AssignIndex (arr idx val : Expr)
  | Eq (l r : Expr)
  | LessThan (l r : Expr)
  | GreaterThan (l r : Expr)
  | LessEqual (l r : Expr)
  | GreaterEqual (l r : Expr)
  | Neq (l r : Expr)
  | Neg (e : Expr)
  | And (l r : Expr)
  | Or (l r : Expr)
  | Not (e : Expr)
deriving Repr

-- ast.rs: `pub enum Stmt`
inductive Stmt
  | Let (ty : Ty) (name : String) (init : Expr)
  | Assign (name : String) (e : Expr)
  | Print (e : Expr)
  | While (cond : Expr) (body : List Stmt)
  | For (init : Option Stmt) (cond : Option Expr) (update : Option Stmt) (body : List Stmt)
  | If (cond : Expr) (thenB : List Stmt) (elifs : List (Expr × List Stmt))
      (elseB : Option (List Stmt))
  | FunctionDef (name : String) (params : List (String × Ty)) (ret : Option Ty)
      (body : List Stmt)
  | Return (e : Option Expr)
  | ExprStmt (e : Expr)
deriving Repr

-- interpreter.rs: `pub enum Value`
inductive Value
  | Int (i : Int)
  | Bool (b : Bool)
  | Str (s : String)
  | Double (d : Rat)
  | Array (elems : List Value)
deriving Repr

-- interpreter.rs: derived `PartialEq` on `Value` is structural equality
-- (for `f64` fields Rust uses float equality; modelling doubles as `Rat`
-- only diverges on NaN/-0.0, which no claim involves).
mutual

def valueBeq : Value → Value → Bool
  | .Int a, .Int b => a == b
  | .Bool a, .Bool b => a == b
  | .Str a, .Str b => a == b
  | .Double a, .Double b => a == b
  | .Array xs, .Array ys => valueBeqList xs ys
  | _, _ => false

def valueBeqList : List Value → List Value → Bool
  | [], [] => true
  | x :: xs, y :: ys => valueBeq x y && valueBeqList xs ys
  | _, _ => false

end

-- interpreter.rs: `impl fmt::Display for Value`.  Integer, boolean and
-- string rendering match Rust's `{}` formatting; the `f64` case is modelled
-- abstractly over `Rat` (no claim prints a double).
mutual

def valueDisplay : Value → String
  | .Int i => toString i
  | .Bool b => cond b ("true") ("false")
  | .Str s => s
  | .Double d => toString d.num ++ (if d.den = 1 then ("") else ("/" ++ toString d.den))
  | .Array elems => "[" ++ String.intercalate (", ") (valueDisplayList elems) ++ "]"

def valueDisplayList : List Value → List String
  | [] => []
  | v :: vs => valueDisplay v :: valueDisplayList vs

end

-- interpreter.rs: `pub enum ControlFlow` (`normal` stands for
-- `ControlFlow::None`, `ret` for `ControlFlow::Return`).
inductive ControlFlow
  | normal
  | ret (val : Option Value)
deriving Repr

-- interpreter.rs: `pub struct FunctionDef`
structure FunctionDef where
  params : List (String × Ty)
  returnType : Option Ty
  body : List Stmt
deriving Repr

-- A Rust panic (`RtErr.fatal msg`, carrying the panic message) or fuel
-- exhaustion (`RtErr.outOfFuel`, the model of divergence).
inductive RtErr
  | outOfFuel
  | fatal (msg : String)
deriving DecidableEq, Repr

-- interpreter.rs: `pub struct Interpreter`
structure Interp where
  env : List (String × Value)
  functions : List (String × FunctionDef)
  outputBuffer : String
deriving Repr

-- interpreter.rs: `Interpreter::new`
def Interp.new : Interp := { env := [], functions := [], outputBuffer := "" }

-- `HashMap::insert` observed through `get`/`contains_key`: first-match
-- association-list cons.
def envInsert (env : List (String × Value)) (k : String) (v : Value) :
    List (String × Value) :=
  (k, v) :: env

-- str::trim_end(): drop trailing whitespace characters.
def trimEnd (s : String) : String :=
  String.mk ((s.data.reverse.dropWhile (fun c => c.isWhitespace)).reverse)

-- `i64 as usize`: two's-complement wrap into [0, 2^64).
def asUsize (i : Int) : Nat := (i % (2 : Int) ^ 64).toNat

-- lexer.rs: `pub enum Token`.
--
-- Modelled from the spec: the lexer file under src/ is an earlier snapshot
-- than the parser file — parser.rs matches the variants `For`, `If`, `Elif`,
-- `Else`, `Funct`, `Return`, `Comma`, `LBracket` and `RBracket`, which the
-- snapshot's `Token` enum lacks (and parser.rs clones the lexer, which the
-- snapshot does not derive `Clone` for).  Those variants are therefore added
-- here following spec §3's token list; every other variant is transcribed
-- from src/backend/src/lexer.rs.
inductive Token
  | Let
  | Int
  | Bool
  | StringType
  | DoubleType
  | While
  | Print
  | For
  | If
  | Elif
  | Else
  | Funct
  | Return
  | Number (n : Int)
  | Double (d : Rat)
  | BoolLiteral (b : Bool)
  | StrLiteral (s : String)
  | Ident (name : String)
  | Plus
  | Minus
  | Star
  | Slash
  | Percent
  | Or
  | And
  | Eq
  | LessThan
  | GreaterThan
  | LessEqual
  | GreaterEqual
  | Neq
  | Not
  | Assign
  | Colon
  | Semicolon
  | Comma
  | LParen
  | RParen
  | LBrace
  | RBrace
  | LBracket
  | RBracket
  | EOF
  | Unknown (c : Char)
deriving DecidableEq, Repr

-- lexer.rs: `pub struct Lexer` (`input: Vec<char>`, `position: usize`).
structure Lexer where
  input : List Char
  position : Nat
deriving Repr

-- lexer.rs: `Lexer::new`
def Lexer.new (source : String) : Lexer := { input := source.data, position := 0 }

-- lexer.rs: `peek`
def Lexer.peek (l : Lexer) : Option Char := l.input.get? l.position

-- lexer.rs: `advance`
def Lexer.adv (l : Lexer) : Option Char × Lexer :=
  (l.peek, { l with position := l.position + 1 })

-- The `peek`/`advance` loops of lexer.rs scan a contiguous run of
-- characters starting at `position`; each is modelled structurally over
-- the remaining character list `input.drop position` (same net effect:
-- the run is consumed, the position advances past it).

-- lexer.rs: `skip_whitespace` — advances past the maximal whitespace run.
def skipWhitespace (l : Lexer) : Lexer :=
  let run := (l.input.drop l.position).takeWhile (fun c => c.isWhitespace)
  { l with position := l.position + run.length }

-- lexer.rs: the string-literal loop inside `next_token`: consumes up to a
-- closing quote (also consumed), or silently up to end of input.
def scanString (l : Lexer) : String × Lexer :=
  let rest := l.input.drop l.position
  let content := rest.takeWhile (fun c => c ≠ '"')
  let consumed :=
    if content.length < rest.length then content.length + 1 else content.length
  (String.mk content, { l with position := l.position + consumed })

-- lexer.rs: the numeric-literal loop inside `next_token` (digits, with at
-- most one '.' switching to a float; a second '.' terminates the literal).
-- Returns the consumed characters and the final is_float flag.
def numScan : List Char → Bool → List Char × Bool
  | [], isFloat => ([], isFloat)
  | c :: rest, isFloat =>
    if c.isDigit then
      let (tl, f) := numScan rest isFloat
      (c :: tl, f)
    else if c = '.' && !isFloat then
      let (tl, f) := numScan rest true
      (c :: tl, f)
    else ([], isFloat)

def scanNumber (l : Lexer) (first : Char) : List Char × Bool × Lexer :=
  let (tl, isFloat) := numScan (l.input.drop l.position) false
  (first :: tl, isFloat, { l with position := l.position + tl.length })

-- lexer.rs: the identifier loop inside `next_token` — consumes the maximal
-- alphanumeric run.
def scanIdent (l : Lexer) (first : Char) : String × Lexer :=
  let run := (l.input.drop l.position).takeWhile (fun c => c.isAlphanum)
  (String.mk (first :: run), { l with position := l.position + run.length })

-- `num.parse::<i64>().unwrap()` on a digit string (modelled unbounded).
def digitsToNat (cs : List Char) : Nat :=
  cs.foldl (fun n c => 10 * n + (c.toNat - ('0').toNat)) 0

-- `num.parse::<f64>().unwrap()` on `digits [ '.' digits ]`, modelled as an
-- exact rational (no claim depends on f64 rounding).
def digitsToRat (cs : List Char) : Rat :=
  let intPart := cs.takeWhile (fun c => c ≠ '.')
  let fracPart := (cs.dropWhile (fun c => c ≠ '.')).drop 1
  (digitsToNat intPart : Rat) + (digitsToNat fracPart : Rat) / ((10 : Rat) ^ fracPart.length)

-- lexer.rs: the keyword table inside `next_token`.
--
-- Modelled from the spec: the src snapshot's table maps `woof` to the print
-- token and has no entries for `for`/`if`/`elif`/`else`/`funct`/`return`
-- (tokens the src parser requires) nor for `and`/`or`/`not` (the spec's
-- §4.2 grammar and §8 examples use those operator keywords).  The missing
-- entries are added per spec §3; `print` is also accepted for the print
-- keyword since every spec example writes `print(...)`.
def keywordToken (ident : String) : Token :=
  if ident = ("let") then .Let
  else if ident = ("woof") then .Print
  else if ident = ("print") then .Print
  else if ident = ("int") then .Int
  else if ident = ("bool") then .Bool
  else if ident = ("string") then .StringType
  else if ident = ("double") then .DoubleType
  else if ident = ("while") then .While
  else if ident = ("for") then .For
  else if ident = ("if") then .If
  else if ident = ("elif") then .Elif
  else if ident = ("else") then .Else
  else if ident = ("funct") then .Funct
  else if ident = ("return") then .Return
  else if ident = ("and") then .And
  else if ident = ("or") then .Or
  else if ident = ("not") then .Not
  else if ident = ("true") then .BoolLiteral true
  else if ident = ("false") then .BoolLiteral false
  else .Ident ident

-- lexer.rs: `next_token` (with the spec-modelled additions for ',', '[',
-- ']' and the '!'-pattern §4.1 describes).
def nextToken (l₀ : Lexer) : Token × Lexer :=
  let l := skipWhitespace l₀
  let (ch, l) := l.adv
  match ch with
  | some '=' =>
    if l.peek = some '=' then (.Eq, (l.adv).2) else (.Assign, l)
  | some '+' => (.Plus, l)
  | some '-' => (.Minus, l)
  | some '*' => (.Star, l)
  | some '/' => (.Slash, l)
  | some '%' => (.Percent, l)
  | some ';' => (.Semicolon, l)
  | some '(' => (.LParen, l)
  | some ')' => (.RParen, l)
  | some '{' => (.LBrace, l)
  | some '}' => (.RBrace, l)
  | some ':' => (.Colon, l)
  | some ',' => (.Comma, l)
  | some '[' => (.LBracket, l)
  | some ']' => (.RBracket, l)
  | some '!' =>
    if l.peek = some '=' then (.Neq, (l.adv).2) else (.Not, l)
  | some '"' =>
    let (s, l') := scanString l
    (.StrLiteral s, l')
  | some '<' =>
    if l.peek = some '=' then (.LessEqual, (l.adv).2) else (.LessThan, l)
  | some '>' =>
    if l.peek = some '=' then (.GreaterEqual, (l.adv).2) else (.GreaterThan, l)
  | some c =>
    if c.isDigit then
      let (digits, isFloat, l') := scanNumber l c
      if isFloat then (.Double (digitsToRat digits), l')
      else (.Number (digitsToNat digits : Nat), l')
    else if c.isAlpha then
      let (ident, l') := scanIdent l c
      (keywordToken ident, l')
    else (.Unknown c, l)
  | none => (.EOF, l)

-- parser.rs: `pub struct Parser` (lexer plus the pre-pulled current token).
structure PState where
  lexer : Lexer
  current : Token
deriving Repr

-- parser.rs: `Parser::new` — pulls the first token, so `lexer` always
-- stands *after* the text of `current`.
def PState.new (lx : Lexer) : PState :=
  let (t, lx') := nextToken lx
  { lexer := lx', current := t }

-- parser.rs: `advance`
def PState.advance (p : PState) : PState :=
  let (t, lx') := nextToken p.lexer
  { lexer := lx', current := t }

-- parser.rs: `is_assignment`.  Clones the lexer and calls `next_token`
-- twice; the source comment says the first call skips the identifier, but
-- the cloned lexer already stands after the identifier (the parser
-- pre-pulls `current`), so the token actually tested is the *second* token
-- after the identifier.
def isAssignment (p : PState) : Bool :=
  match p.current with
  | .Ident _ =>
    let tempLexer := p.lexer
    let (_, temp1) := nextToken tempLexer
    let (next, _) := nextToken temp1
    match next with
    | .Assign => true
    | _ => false
  | _ => false

-- parser.rs: `parse_type`
def parseType (p : PState) : Option Ty × PState :=
  match p.current with
  | .Int => (some .int, p.advance)
  | .Bool => (some .bool, p.advance)
  | .StringType => (some .string, p.advance)
  | .DoubleType => (some .double, p.advance)
  | _ => (none, p)

-- A fallible parsing function returns a panic (`RtErr.fatal`), or its
-- `Option` result together with the parser state left behind (Rust's
-- `&mut self` keeps its partial progress even when `None` is returned).

mutual

-- parser.rs: `parse_stmt`
def parseStmt : Nat → PState → Except RtErr (Option Stmt × PState)
  | 0, _ => .error .outOfFuel
  | n + 1, p =>
    match p.current with
    | .Let => parseLetStmt n p
    | .Print => parsePrintStmt n p
    | .While => parseWhileStmt n p
    | .For => parseForStmt n p
    | .If => parseIfStmt n p
    | .Funct => parseFunctionDef n p
    | .Return => parseReturnStmt n p
    | .Ident _ => if isAssignment p then parseAssignStmt n p else parseExprStmt n p
    | _ => .ok (none, p)

-- parser.rs: `parse_expr_stmt`
def parseExprStmt : Nat → PState → Except RtErr (Option Stmt × PState)
  | 0, _ => .error .outOfFuel
  | n + 1, p => do
    let (e?, p1) ← parseExpr n p
    match e? with
    | none => .ok (none, p1)
    | some e =>
      if p1.current = .Semicolon then .ok (some (.ExprStmt e), p1.advance)
      else .ok (none, p1)

-- parser.rs: `parse_let_stmt`
def parseLetStmt : Nat → PState → Except RtErr (Option Stmt × PState)
  | 0, _ => .error .outOfFuel
  | n + 1, p₀ =>
    let p := p₀.advance
    match p.current with
    | .Ident name =>
      let p := p.advance
      match (if p.current = .Colon then parseType p.advance else (some .int, p)) with
      | (none, p1) => .ok (none, p1)
      | (some ty, p1) =>
        if p1.current ≠ .Assign then .ok (none, p1)
        else do
          let (e?, p2) ← parseExpr n p1.advance
          match e? with
          | none => .ok (none, p2)
          | some e =>
            if p2.current = .Semicolon then .ok (some (.Let ty name e), p2.advance)
            else .ok (none, p2)
    | _ => .ok (none, p)

-- parser.rs: `parse_print_stmt`
def parsePrintStmt : Nat → PState → Except RtErr (Option Stmt × PState)
  | 0, _ => .error .outOfFuel
  | n + 1, p₀ =>
    let p := p₀.advance
    if p.current ≠ .LParen then .ok (none, p)
    else do
      let (e?, p1) ← parseExpr n p.advance
      match e? with
      | none => .ok (none, p1)
      | some e =>
        if p1.current ≠ .RParen then .ok (none, p1)
        else
          let p2 := p1.advance
          if p2.current ≠ .Semicolon then .ok (none, p2)
          else .ok (some (.Print e), p2.advance)

-- parser.rs: the `while current != RBrace && current != EOF` body loop used
-- verbatim by `parse_while_stmt`, `parse_if_stmt`, `parse_for_stmt` and
-- `parse_function_def` (with the same skip-on-failure recovery).
def parseBlockItems : Nat → PState → List Stmt → Except RtErr (List Stmt × PState)
  | 0, _, _ => .error .outOfFuel
  | n + 1, p, acc =>
    if p.current = .RBrace ∨ p.current = .EOF then .ok (acc, p)
    else do
      let (st?, p1) ← parseStmt n p
      match st? with
      | some st => parseBlockItems n p1 (acc ++ [st])
      | none => parseBlockItems n p1.advance acc

-- parser.rs: `parse_while_stmt`
def parseWhileStmt : Nat → PState → Except RtErr (Option Stmt × PState)
  | 0, _ => .error .outOfFuel
  | n + 1, p₀ =>
    let p := p₀.advance
    if p.current ≠ .LParen then .ok (none, p)
    else do
      let (cond?, p1) ← parseExpr n p.advance
      match cond? with
      | none => .ok (none, p1)
      | some cond =>
        if p1.current ≠ .RParen then .ok (none, p1)
        else
          let p2 := p1.advance
          if p2.current ≠ .LBrace then .ok (none, p2)
          else do
            let (body, p3) ← parseBlockItems n p2.advance []
            if p3.current ≠ .RBrace then .ok (none, p3)
            else .ok (some (.While cond body), p3.advance)

-- parser.rs: the elif-branch loop of `parse_if_stmt`
def parseElifLoop : Nat → PState → List (Expr × List Stmt) →
    Except RtErr (Option (List (Expr × List Stmt)) × PState)
  | 0, _, _ => .error .outOfFuel
  | n + 1, p, acc =>
    if p.current = .Elif then
      let p1 := p.advance
      if p1.current ≠ .LParen then .ok (none, p1)
      else do
        let (c?, p2) ← parseExpr n p1.advance
        match c? with
        | none => .ok (none, p2)
        | some c =>
          if p2.current ≠ .RParen then .ok (none, p2)
          else
            let p3 := p2.advance
            if p3.current ≠ .LBrace then .ok (none, p3)
            else do
              let (blk, p4) ← parseBlockItems n p3.advance []
              if p4.current ≠ .RBrace then .ok (none, p4)
              else parseElifLoop n p4.advance (acc ++ [(c, blk)])
    else .ok (some acc, p)

-- parser.rs: `parse_if_stmt`
def parseIfStmt : Nat → PState → Except RtErr (Option Stmt × PState)
  | 0, _ => .error .outOfFuel
  | n + 1, p₀ =>
    let p := p₀.advance
    if p.current ≠ .LParen then .ok (none, p)
    else do
      let (cond?, p1) ← parseExpr n p.advance
      match cond? with
      | none => .ok (none, p1)
      | some cond =>
        if p1.current ≠ .RParen then .ok (none, p1)
        else
          let p2 := p1.advance
          if p2.current ≠ .LBrace then .ok (none, p2)
          else do
            let (ifBlock, p3) ← parseBlockItems n p2.advance []
            if p3.current ≠ .RBrace then .ok (none, p3)
            else do
              let (elifs?, p4) ← parseElifLoop n p3.advance []
              match elifs? with
              | none => .ok (none, p4)
              | some elifs =>
                if p4.current = .Else then
                  let p5 := p4.advance
                  if p5.current ≠ .LBrace then .ok (none, p5)
                  else do
                    let (blk, p6) ← parseBlockItems n p5.advance []
                    if p6.current ≠ .RBrace then .ok (none, p6)
                    else .ok (some (.If cond ifBlock elifs (some blk)), p6.advance)
                else .ok (some (.If cond ifBlock elifs none), p4)

-- parser.rs: `parse_expr`
def parseExpr : Nat → PState → Except RtErr (Option Expr × PState)
  | 0, _ => .error .outOfFuel
  | n + 1, p => parseOrExpr n p

-- parser.rs: `parse_or_expr`
def parseOrExpr : Nat → PState → Except RtErr (Option Expr × PState)
  | 0, _ => .error .outOfFuel
  | n + 1, p => do
    let (l?, p1) ← parseAndExpr n p
    match l? with
    | none => .ok (none, p1)
    | some l => parseOrLoop n l p1

def parseOrLoop : Nat → Expr → PState → Except RtErr (Option Expr × PState)
  | 0, _, _ => .error .outOfFuel
  | n + 1, left, p =>
    if p.current = .Or then do
      let (r?, p1) ← parseAndExpr n p.advance
      match r? with
      | none => .ok (none, p1)
      | some r => parseOrLoop n (.Or left r) p1
    else .ok (some left, p)

-- parser.rs: `parse_and_expr`
def parseAndExpr : Nat → PState → Except RtErr (Option Expr × PState)
  | 0, _ => .error .outOfFuel
  | n + 1, p => do
    let (l?, p1) ← parseEqualityExpr n p
    match l? with
    | none => .ok (none, p1)
    | some l => parseAndLoop n l p1

def parseAndLoop : Nat → Expr → PState → Except RtErr (Option Expr × PState)
  | 0, _, _ => .error .outOfFuel
  | n + 1, left, p =>
    if p.current = .And then do
      let (r?, p1) ← parseEqualityExpr n p.advance
      match r? with
      | none => .ok (none, p1)
      | some r => parseAndLoop n (.And left r) p1
    else .ok (some left, p)

-- parser.rs: `parse_equality_expr`
def parseEqualityExpr : Nat → PState → Except RtErr (Option Expr × PState)
  | 0, _ => .error .outOfFuel
  | n + 1, p => do
    let (l?, p1) ← parseRelExpr n p
    match l? with
    | none => .ok (none, p1)
    | some l => parseEqLoop n l p1

def parseEqLoop : Nat → Expr → PState → Except RtErr (Option Expr × PState)
  | 0, _, _ => .error .outOfFuel
  | n + 1, left, p =>
    match p.current with
    | .Eq => do
      let (r?, p1) ← parseRelExpr n p.advance
      match r? with
      | none => .ok (none, p1)
      | some r => parseEqLoop n (.Eq left r) p1
    | .Neq => do
      let (r?, p1) ← parseRelExpr n p.advance
      match r? with
      | none => .ok (none, p1)
      | some r => parseEqLoop n (.Neq left r) p1
    | _ => .ok (some left, p)

-- parser.rs: `parse_rel_expr`
def parseRelExpr : Nat → PState → Except RtErr (Option Expr × PState)
  | 0, _ => .error .outOfFuel
  | n + 1, p => do
    let (l?, p1) ← parseAddExpr n p
    match l? with
    | none => .ok (none, p1)
    | some l => parseRelLoop n l p1

def parseRelLoop : Nat → Expr → PState → Except RtErr (Option Expr × PState)
  | 0, _, _ => .error .outOfFuel
  | n + 1, left, p =>
    match p.current with
    | .LessThan => do
      let (r?, p1) ← parseAddExpr n p.advance
      match r? with
      | none => .ok (none, p1)
      | some r => parseRelLoop n (.LessThan left r) p1
    | .GreaterThan => do
      let (r?, p1) ← parseAddExpr n p.advance
      match r? with
      | none => .ok (none, p1)
      | some r => parseRelLoop n (.GreaterThan left r) p1
    | .LessEqual => do
      let (r?, p1) ← parseAddExpr n p.advance
      match r? with
      | none => .ok (none, p1)
      | some r => parseRelLoop n (.LessEqual left r) p1
    | .GreaterEqual => do
      let (r?, p1) ← parseAddExpr n p.advance
      match r? with
      | none => .ok (none, p1)
      | some r => parseRelLoop n (.GreaterEqual left r) p1
    | _ => .ok (some left, p)

-- parser.rs: `parse_add_expr`
def parseAddExpr : Nat → PState → Except RtErr (Option Expr × PState)
  | 0, _ => .error .outOfFuel
  | n + 1, p => do
    let (l?, p1) ← parseMulExpr n p
    match l? with
    | none => .ok (none, p1)
    | some l => parseAddLoop n l p1

def parseAddLoop : Nat → Expr → PState → Except RtErr (Option Expr × PState)
  | 0, _, _ => .error .outOfFuel
  | n + 1, left, p =>
    match p.current with
    | .Plus => do
      let (r?, p1) ← parseMulExpr n p.advance
      match r? with
      | none => .ok (none, p1)
      | some r => parseAddLoop n (.Add left r) p1
    | .Minus => do
      let (r?, p1) ← parseMulExpr n p.advance
      match r? with
      | none => .ok (none, p1)
      | some r => parseAddLoop n (.Sub left r) p1
    | _ => .ok (some left, p)

-- parser.rs: `parse_mul_expr`
def parseMulExpr : Nat → PState → Except RtErr (Option Expr × PState)
  | 0, _ => .error .outOfFuel
  | n + 1, p => do
    let (l?, p1) ← parseUnaryExpr n p
    match l? with
    | none => .ok (none, p1)
    | some l => parseMulLoop n l p1

def parseMulLoop : Nat → Expr → PState → Except RtErr (Option Expr × PState)
  | 0, _, _ => .error .outOfFuel
  | n + 1, left, p =>
    match p.current with
    | .Star => do
      let (r?, p1) ← parseUnaryExpr n p.advance
      match r? with
      | none => .ok (none, p1)
      | some r => parseMulLoop n (.Mul left r) p1
    | .Slash => do
      let (r?, p1) ← parseUnaryExpr n p.advance
      match r? with
      | none => .ok (none, p1)
      | some r => parseMulLoop n (.Div left r) p1
    | .Percent => do
      let (r?, p1) ← parseUnaryExpr n p.advance
      match r? with
      | none => .ok (none, p1)
      | some r => parseMulLoop n (.Mod left r) p1
    | _ => .ok (some left, p)

-- parser.rs: `parse_unary_expr`
def parseUnaryExpr : Nat → PState → Except RtErr (Option Expr × PState)
  | 0, _ => .error .outOfFuel
  | n + 1, p =>
    match p.current with
    | .Not => do
      let (e?, p1) ← parseUnaryExpr n p.advance
      match e? with
      | none => .ok (none, p1)
      | some e => .ok (some (.Not e), p1)
    | .Minus => do
      let (e?, p1) ← parseUnaryExpr n p.advance
      match e? with
      | none => .ok (none, p1)
      | some e => .ok (some (.Neg e), p1)
    | _ => parseTerm n p

-- parser.rs: the call-argument loop of `parse_term`
def parseCallArgs : Nat → PState → List Expr → Except RtErr (Option (List Expr) × PState)
  | 0, _, _ => .error .outOfFuel
  | n + 1, p, acc => do
    let (arg?, p1) ← parseExpr n p
    match arg? with
    | none => .ok (none, p1)
    | some arg =>
      if p1.current = .Comma then parseCallArgs n p1.advance (acc ++ [arg])
      else .ok (some (acc ++ [arg]), p1)

-- parser.rs: the array-element loop of `parse_term`
def parseArrayElems : Nat → PState → List Expr → Except RtErr (Option (List Expr) × PState)
  | 0, _, _ => .error .outOfFuel
  | n + 1, p, acc => do
    let (e?, p1) ← parseExpr n p
    match e? with
    | none => .ok (none, p1)
    | some e =>
      if p1.current = .Comma then parseArrayElems n p1.advance (acc ++ [e])
      else .ok (some (acc ++ [e]), p1)

-- parser.rs: `parse_term`
def parseTerm : Nat → PState → Except RtErr (Option Expr × PState)
  | 0, _ => .error .outOfFuel
  | n + 1, p => do
    let (term?, p') ←
      (match p.current with
       | .Number nv => .ok (some (Expr.Number nv), p.advance)
       | .Double d => .ok (some (Expr.Double d), p.advance)
       | .BoolLiteral b => .ok (some (Expr.Bool b), p.advance)
       | .StrLiteral s => .ok (some (Expr.StrLiteral s), p.advance)
       | .Ident name =>
         let p1 := p.advance
         if p1.current = .LParen then do
           let p2 := p1.advance
           let (args?, p3) ←
             if p2.current ≠ .RParen then parseCallArgs n p2 []
             else .ok (some [], p2)
           match args? with
           | none => .ok (none, p3)
           | some args =>
             if p3.current ≠ .RParen then .ok (none, p3)
             else .ok (some (Expr.FunctionCall name args), p3.advance)
         else .ok (some (Expr.Var name), p1)
       | .LBracket => do
         let p1 := p.advance
         let (elems?, p2) ←
           if p1.current ≠ .RBracket then parseArrayElems n p1 []
           else .ok (some [], p1)
         match elems? with
         | none => .ok (none, p2)
         | some elems =>
           if p2.current ≠ .RBracket then
             .error (.fatal ("Expected closing bracket for array literal"))
           else .ok (some (Expr.ArrayLiteral elems), p2.advance)
       | .LParen => do
         let (e?, p1) ← parseExpr n p.advance
         match e? with
         | none => .ok (none, p1)
         | some e =>
           if p1.current ≠ .RParen then .ok (none, p1)
           else .ok (some e, p1.advance)
       | _ => .ok (none, p) : Except RtErr (Option Expr × PState))
    match term? with
    | none => .ok (none, p')
    | some t => parseIndexLoop n t p'

-- parser.rs: `parse_postfix` (the chained `expr[index]` loop)
def parseIndexLoop : Nat → Expr → PState → Except RtErr (Option Expr × PState)
  | 0, _, _ => .error .outOfFuel
  | n + 1, e, p =>
    match p.current with
    | .LBracket => do
      let (idx?, p1) ← parseExpr n p.advance
      match idx? with
      | none => .ok (none, p1)
      | some idx =>
        if p1.current ≠ .RBracket then
          .error (.fatal ("Expected closing bracket for index"))
        else parseIndexLoop n (.Index e idx) p1.advance
    | _ => .ok (some e, p)

-- parser.rs: `parse_assign_stmt`
def parseAssignStmt : Nat → PState → Except RtErr (Option Stmt × PState)
  | 0, _ => .error .outOfFuel
  | n + 1, p =>
    match p.current with
    | .Ident name =>
      let p1 := p.advance
      if p1.current ≠ .Assign then .ok (none, p1)
      else do
        let (e?, p2) ← parseExpr n p1.advance
        match e? with
        | none => .ok (none, p2)
        | some e =>
          if p2.current ≠ .Semicolon then .ok (none, p2)
          else .ok (some (.Assign name e), p2.advance)
    | _ => .ok (none, p)

-- parser.rs: `parse_let_stmt_no_semicolon`
def parseLetNoSemi : Nat → PState → Except RtErr (Option Stmt × PState)
  | 0, _ => .error .outOfFuel
  | n + 1, p₀ =>
    let p := p₀.advance
    match p.current with
    | .Ident name =>
      let p := p.advance
      match (if p.current = .Colon then parseType p.advance else (some .int, p)) with
      | (none, p1) => .ok (none, p1)
      | (some ty, p1) =>
        if p1.current ≠ .Assign then .ok (none, p1)
        else do
          let (e?, p2) ← parseExpr n p1.advance
          match e? with
          | none => .ok (none, p2)
          | some e => .ok (some (.Let ty name e), p2)
    | _ => .ok (none, p)

-- parser.rs: `parse_assign_stmt_no_semicolon`
def parseAssignNoSemi : Nat → PState → Except RtErr (Option Stmt × PState)
  | 0, _ => .error .outOfFuel
  | n + 1, p =>
    match p.current with
    | .Ident name =>
      let p1 := p.advance
      if p1.current ≠ .Assign then .ok (none, p1)
      else do
        let (e?, p2) ← parseExpr n p1.advance
        match e? with
        | none => .ok (none, p2)
        | some e => .ok (some (.Assign name e), p2)
    | _ => .ok (none, p)

-- parser.rs: `parse_for_stmt`
def parseForStmt : Nat → PState → Except RtErr (Option Stmt × PState)
  | 0, _ => .error .outOfFuel
  | n + 1, p₀ =>
    let p := p₀.advance
    if p.current ≠ .LParen then .ok (none, p)
    else do
      let p := p.advance
      let (init?, p1) ←
        (if p.current = .Semicolon then .ok (some none, p)
         else match p.current with
           | .Let => do
             let (s?, p') ← parseLetNoSemi n p
             .ok (s?.map some, p')
           | .Ident _ => do
             let (s?, p') ← parseAssignNoSemi n p
             .ok (s?.map some, p')
           | _ => .ok (none, p) : Except RtErr (Option (Option Stmt) × PState))
      match init? with
      | none => .ok (none, p1)
      | some init =>
        if p1.current ≠ .Semicolon then .ok (none, p1)
        else do
          let p2 := p1.advance
          let (cond, p3) ←
            (if p2.current = .Semicolon then .ok ((none : Option Expr), p2)
             else parseExpr n p2 : Except RtErr (Option Expr × PState)).map
              (fun x => ((x.1, x.2) : Option Expr × PState))
          if p3.current ≠ .Semicolon then .ok (none, p3)
          else do
            let p4 := p3.advance
            let (update?, p5) ←
              (if p4.current = .RParen then .ok (some none, p4)
               else match p4.current with
                 | .Ident _ => do
                   let (u?, p') ← parseAssignNoSemi n p4
                   .ok (some u?, p')
                 | _ => .ok (none, p4) : Except RtErr (Option (Option Stmt) × PState))
            match update? with
            | none => .ok (none, p5)
            | some update =>
              if p5.current ≠ .RParen then .ok (none, p5)
              else
                let p6 := p5.advance
                if p6.current ≠ .LBrace then .ok (none, p6)
                else do
                  let (body, p7) ← parseBlockItems n p6.advance []
                  if p7.current ≠ .RBrace then .ok (none, p7)
                  else .ok (some (.For init cond update body), p7.advance)

-- parser.rs: the parameter loop of `parse_function_def`
def parseParamsLoop : Nat → PState → List (String × Ty) → Except RtErr (Option (List (String × Ty)) × PState)
  | 0, _, _ => .error .outOfFuel
  | n + 1, p, acc =>
    if p.current = .RParen then .ok (some acc, p)
    else
      match p.current with
      | .Ident pname =>
        let p1 := p.advance
        if p1.current ≠ .Colon then .ok (none, p1)
        else
          match parseType p1.advance with
          | (none, p2) => .ok (none, p2)
          | (some ty, p2) =>
            if p2.current = .Comma then parseParamsLoop n p2.advance (acc ++ [(pname, ty)])
            else if p2.current ≠ .RParen then .ok (none, p2)
            else parseParamsLoop n p2 (acc ++ [(pname, ty)])
      | _ => .ok (none, p)

-- parser.rs: `parse_function_def`
def parseFunctionDef : Nat → PState → Except RtErr (Option Stmt × PState)
  | 0, _ => .error .outOfFuel
  | n + 1, p₀ =>
    let p := p₀.advance
    match p.current with
    | .Ident name =>
      let p := p.advance
      if p.current ≠ .LParen then .ok (none, p)
      else do
        let (params?, p1) ← parseParamsLoop n p.advance []
        match params? with
        | none => .ok (none, p1)
        | some params =>
          let p2 := p1.advance
          let (rt?, p3) ←
            (if p2.current = .Colon then
              match parseType p2.advance with
              | (none, p') => .ok (none, p')
              | (some t, p') => .ok (some (some t), p')
             else .ok (some none, p2) : Except RtErr (Option (Option Ty) × PState))
          match rt? with
          | none => .ok (none, p3)
          | some rt =>
            if p3.current ≠ .LBrace then .ok (none, p3)
            else do
              let (body, p4) ← parseBlockItems n p3.advance []
              if p4.current ≠ .RBrace then .ok (none, p4)
              else .ok (some (.FunctionDef name params rt body), p4.advance)
    | _ => .ok (none, p)

-- parser.rs: `parse_return_stmt`
def parseReturnStmt : Nat → PState → Except RtErr (Option Stmt × PState)
  | 0, _ => .error .outOfFuel
  | n + 1, p₀ => do
    let p := p₀.advance
    let (e?, p1) ←
      (if p.current = .Semicolon then .ok (some none, p)
       else do
         let (x?, p') ← parseExpr n p
         .ok (x?.map some, p') : Except RtErr (Option (Option Expr) × PState))
    match e? with
    | none => .ok (none, p1)
    | some e =>
      if p1.current ≠ .Semicolon then .ok (none, p1)
      else .ok (some (.Return e), p1.advance)

-- parser.rs: `parse` (top-level loop with skip-on-failure recovery)
def parseProgramLoop : Nat → PState → Except RtErr (List Stmt)
  | 0, _ => .error .outOfFuel
  | n + 1, p =>
    if p.current = .EOF then .ok []
    else do
      let (st?, p1) ← parseStmt n p
      match st? with
      | some st => do
        let rest ← parseProgramLoop n p1
        .ok (st :: rest)
      | none => parseProgramLoop n p1.advance

end

-- interpreter.rs: the `Expr::Add` value match (arm order as in the source:
-- Str/Str precedes the stringifying Str/other and other/Str arms).
def addVals : Value → Value → Except RtErr Value
  | .Int l, .Int r => .ok (.Int (l + r))
  | .Double l, .Double r => .ok (.Double (l + r))
  | .Str l, .Str r => .ok (.Str (l ++ r))
  | .Str l, v => .ok (.Str (l ++ valueDisplay v))
  | v, .Str r => .ok (.Str (valueDisplay v ++ r))
  | _, _ => .error (.fatal ("Unsupported addition types"))

-- interpreter.rs: the `Expr::Sub` value match
def subVals : Value → Value → Except RtErr Value
  | .Int l, .Int r => .ok (.Int (l - r))
  | .Double l, .Double r => .ok (.Double (l - r))
  | _, _ => .error (.fatal ("Unsupported subtraction types"))

-- interpreter.rs: the `Expr::Mul` value match
def mulVals : Value → Value → Except RtErr Value
  | .Int l, .Int r => .ok (.Int (l * r))
  | .Double l, .Double r => .ok (.Double (l * r))
  | _, _ => .error (.fatal ("Unsupported multiplication types"))

-- interpreter.rs: the `Expr::Div` value match (`Int.tdiv` truncates toward
-- zero like Rust's `i64` division; the zero test precedes the division).
def divVals : Value → Value → Except RtErr Value
  | .Int l, .Int r =>
    if r = 0 then .error (.fatal ("Division by zero")) else .ok (.Int (Int.tdiv l r))
  | .Double l, .Double r =>
    if r = 0 then .error (.fatal ("Division by zero")) else .ok (.Double (l / r))
  | _, _ => .error (.fatal ("Unsupported division types"))

-- interpreter.rs: the `Expr::Mod` value match (`Int.tmod` keeps the sign of
-- the dividend like Rust's `%`; integer-only).
def modVals : Value → Value → Except RtErr Value
  | .Int l, .Int r =>
    if r = 0 then .error (.fatal ("Modulo by zero")) else .ok (.Int (Int.tmod l r))
  | _, _ => .error (.fatal ("Unsupported modulo types"))

-- interpreter.rs: the `Expr::LessThan` value match
def ltVals : Value → Value → Except RtErr Value
  | .Int l, .Int r => .ok (.Bool (decide (l < r)))
  | .Double l, .Double r => .ok (.Bool (decide (l < r)))
  | _, _ => .error (.fatal ("Unsupported types for LessThan comparison"))

-- interpreter.rs: the `Expr::GreaterThan` value match
def gtVals : Value → Value → Except RtErr Value
  | .Int l, .Int r => .ok (.Bool (decide (l > r)))
  | .Double l, .Double r => .ok (.Bool (decide (l > r)))
  | _, _ => .error (.fatal ("Unsupported types for GreaterThan comparison"))

-- interpreter.rs: the `Expr::LessEqual` value match
def leVals : Value → Value → Except RtErr Value
  | .Int l, .Int r => .ok (.Bool (decide (l ≤ r)))
  | .Double l, .Double r => .ok (.Bool (decide (l ≤ r)))
  | _, _ => .error (.fatal ("Unsupported types for LessEqual comparison"))

-- interpreter.rs: the `Expr::GreaterEqual` value match
def geVals : Value → Value → Except RtErr Value
  | .Int l, .Int r => .ok (.Bool (decide (l ≥ r)))
  | .Double l, .Double r => .ok (.Bool (decide (l ≥ r)))
  | _, _ => .error (.fatal ("Unsupported types for GreaterEqual comparison"))

-- interpreter.rs: the `if output.is_empty() { None } else { Some(output) }`
-- conversion used by the While/If/For arms.
def strOpt (s : String) : Option String := if s.isEmpty then none else some s

mutual

-- interpreter.rs: `eval`
def eval : Nat → Expr → Interp → Except RtErr (Value × Interp)
  | 0, _, _ => .error .outOfFuel
  | n + 1, e, s =>
    match e with
    | .Number nv => .ok (.Int nv, s)
    | .Bool b => .ok (.Bool b, s)
    | .StrLiteral str => .ok (.Str str, s)
    | .Double d => .ok (.Double d, s)
    | .Var name =>
      match List.lookup name s.env with
      | some v => .ok (v, s)
      | none => .error (.fatal ("Undefined variable: " ++ name))
    | .ArrayLiteral elems => do
      let (vs, s1) ← evalList n elems s
      .ok (.Array vs, s1)
    | .Index arrE idxE => do
      let (av, s1) ← eval n arrE s
      let (iv, s2) ← eval n idxE s1
      match av, iv with
      | .Array arr, .Int i =>
        .ok ((List.get? arr (asUsize i)).getD (.Str ("Index out of bounds")), s2)
      | _, _ => .error (.fatal ("Invalid indexing operation"))
    | .AssignIndex arrE idxE valE => do
      let (av, s1) ← eval n arrE s
      let (iv, s2) ← eval n idxE s1
      let (nv, s3) ← eval n valE s2
      match av, iv with
      | .Array arr, .Int i =>
        if asUsize i < arr.length then .ok (.Array (arr.set (asUsize i) nv), s3)
        else .error (.fatal ("Index out of bounds"))
      | _, _ => .error (.fatal ("Invalid array assignment"))
    | .Add l r => do
      let (a, s1) ← eval n l s
      let (b, s2) ← eval n r s1
      (addVals a b).map (fun v => (v, s2))
    | .Neg e1 => do
      let (v, s1) ← eval n e1 s
      match v with
      | .Int i => .ok (.Int (-i), s1)
      | .Double d => .ok (.Double (-d), s1)
      | _ => .error (.fatal ("Unsupported negation type"))
    | .Eq l r => do
      let (a, s1) ← eval n l s
      let (b, s2) ← eval n r s1
      .ok (.Bool (valueBeq a b), s2)
    | .Neq l r => do
      let (a, s1) ← eval n l s
      let (b, s2) ← eval n r s1
      .ok (.Bool (!valueBeq a b), s2)
    | .And l r => do
      let (a, s1) ← eval n l s
      match a with
      | .Bool false => .ok (.Bool false, s1)
      | .Bool true => do
        let (b, s2) ← eval n r s1
        match b with
        | .Bool rb => .ok (.Bool rb, s2)
        | _ => .error (.fatal ("Expected boolean in And"))
      | _ => .error (.fatal ("Expected boolean in And"))
    | .Or l r => do
      let (a, s1) ← eval n l s
      match a with
      | .Bool true => .ok (.Bool true, s1)
      | .Bool false => do
        let (b, s2) ← eval n r s1
        match b with
        | .Bool rb => .ok (.Bool rb, s2)
        | _ => .error (.fatal ("Expected boolean in Or"))
      | _ => .error (.fatal ("Expected boolean in Or"))
    | .Not e1 => do
      let (v, s1) ← eval n e1 s
      match v with
      | .Bool b => .ok (.Bool (!b), s1)
      | _ => .error (.fatal ("Expected boolean in Not"))
    | .Sub l r => do
      let (a, s1) ← eval n l s
      let (b, s2) ← eval n r s1
      (subVals a b).map (fun v => (v, s2))
    | .Mul l r => do
      let (a, s1) ← eval n l s
      let (b, s2) ← eval n r s1
      (mulVals a b).map (fun v => (v, s2))
    | .Div l r => do
      let (a, s1) ← eval n l s
      let (b, s2) ← eval n r s1
      (divVals a b).map (fun v => (v, s2))
    | .Mod l r => do
      let (a, s1) ← eval n l s
      let (b, s2) ← eval n r s1
      (modVals a b).map (fun v => (v, s2))
    | .LessThan l r => do
      let (a, s1) ← eval n l s
      let (b, s2) ← eval n r s1
      (ltVals a b).map (fun v => (v, s2))
    | .GreaterThan l r => do
      let (a, s1) ← eval n l s
      let (b, s2) ← eval n r s1
      (gtVals a b).map (fun v => (v, s2))
    | .LessEqual l r => do
      let (a, s1) ← eval n l s
      let (b, s2) ← eval n r s1
      (leVals a b).map (fun v => (v, s2))
    | .GreaterEqual l r => do
      let (a, s1) ← eval n l s
      let (b, s2) ← eval n r s1
      (geVals a b).map (fun v => (v, s2))
    | .FunctionCall name args =>
      match List.lookup name s.functions with
      | none => .error (.fatal ("Undefined function: " ++ name))
      | some fd =>
        if args.length ≠ fd.params.length then
          .error (.fatal ("Function " ++ name ++ " expects " ++
            toString fd.params.length ++ " arguments, got " ++ toString args.length))
        else do
          let (bindings, sc) ← bindArgs n fd.params args s []
          let callee : Interp :=
            { env := bindings, functions := s.functions, outputBuffer := "" }
          let (acc, rv, _) ← callBody n fd.body callee
          .ok (rv.getD (.Int 0), { sc with outputBuffer := sc.outputBuffer ++ acc })

-- interpreter.rs: the element loop of the `Expr::ArrayLiteral` arm
def evalList : Nat → List Expr → Interp → Except RtErr (List Value × Interp)
  | 0, _, _ => .error .outOfFuel
  | _ + 1, [], s => .ok ([], s)
  | n + 1, e :: es, s => do
    let (v, s1) ← eval n e s
    let (vs, s2) ← evalList n es s1
    .ok (v :: vs, s2)

-- interpreter.rs: the parameter-binding loop of the `Expr::FunctionCall`
-- arm — each argument is evaluated in the *caller's* state, left to right,
-- and bound into the fresh callee environment.  (The final catch-all is
-- unreachable because the arity check precedes the loop.)
def bindArgs : Nat → List (String × Ty) → List Expr → Interp →
    List (String × Value) → Except RtErr (List (String × Value) × Interp)
  | 0, _, _, _, _ => .error .outOfFuel
  | _ + 1, [], _, s, acc => .ok (acc, s)
  | n + 1, (pname, _) :: ps, a :: rest, s, acc => do
    let (v, s1) ← eval n a s
    bindArgs n ps rest s1 (envInsert acc pname v)
  | _ + 1, _ :: _, [], s, acc => .ok (acc, s)

-- interpreter.rs: the body loop of the `Expr::FunctionCall` arm — each
-- statement's reported output is pushed (with a newline) onto the caller's
-- output buffer; the loop breaks at the first `Return`.  The pushes are
-- accumulated here and appended to the caller's buffer by the caller,
-- which is equivalent because the buffer is write-only during the loop.
def callBody : Nat → List Stmt → Interp → Except RtErr (String × Option Value × Interp)
  | 0, _, _ => .error .outOfFuel
  | _ + 1, [], cs => .ok (("", none, cs))
  | n + 1, st :: rest, cs => do
    let ((out, ctl), cs1) ← execStmt n st cs
    let chunk := match out with
      | some o => o ++ "\n"
      | none => ""
    match ctl with
    | .ret v => .ok ((chunk, v, cs1))
    | .normal => do
      let (acc, rv, cs2) ← callBody n rest cs1
      .ok ((chunk ++ acc, rv, cs2))

-- interpreter.rs: the `for stmt in &body { ... }` loop shared by the While,
-- If and For arms of `execute_with_control`: each statement's output is
-- appended (plus newline) to the running `output`, and a `Return` stops the
-- loop immediately, carrying the output accumulated so far.
def runBlock : Nat → List Stmt → Interp → String →
    Except RtErr ((String × ControlFlow) × Interp)
  | 0, _, _, _ => .error .outOfFuel
  | _ + 1, [], s, acc => .ok ((acc, .normal), s)
  | n + 1, st :: rest, s, acc => do
    let ((out, ctl), s1) ← execStmt n st s
    let acc' := match out with
      | some o => acc ++ o ++ "\n"
      | none => acc
    match ctl with
    | .ret v => .ok ((acc', .ret v), s1)
    | .normal => runBlock n rest s1 acc'

-- interpreter.rs: the `loop { if let Value::Bool(true) = cond ... }` of the
-- `Stmt::While` arm (any non-true condition value breaks; `output` is
-- shared across iterations).
def whileLoop : Nat → Expr → List Stmt → Interp → String →
    Except RtErr ((Option String × ControlFlow) × Interp)
  | 0, _, _, _, _ => .error .outOfFuel
  | n + 1, cond, body, s, acc => do
    let (cv, s1) ← eval n cond s
    match cv with
    | .Bool true => do
      let ((acc', ctl), s2) ← runBlock n body s1 acc
      match ctl with
      | .ret v => .ok ((strOpt acc', .ret v), s2)
      | .normal => whileLoop n cond body s2 acc'
    | _ => .ok ((strOpt acc, .normal), s1)

-- interpreter.rs: the elif/else chain of the `Stmt::If` arm
def elifChain : Nat → List (Expr × List Stmt) → Option (List Stmt) → Interp →
    Except RtErr ((Option String × ControlFlow) × Interp)
  | 0, _, _, _ => .error .outOfFuel
  | n + 1, [], elseB, s =>
    match elseB with
    | some blk => do
      let ((out, ctl), s1) ← runBlock n blk s ("")
      .ok ((strOpt out, ctl), s1)
    | none => .ok ((none, .normal), s)
  | n + 1, (c, blk) :: rest, elseB, s => do
    let (cv, s1) ← eval n c s
    match cv with
    | .Bool true => do
      let ((out, ctl), s2) ← runBlock n blk s1 ("")
      .ok ((strOpt out, ctl), s2)
    | _ => elifChain n rest elseB s1

-- interpreter.rs: the `loop { ... }` of the `Stmt::For` arm (condition
-- defaults to true when absent; init/update results are discarded; a
-- non-true condition value breaks).
def forLoop : Nat → Option Expr → Option Stmt → List Stmt → Interp → String →
    Except RtErr ((Option String × ControlFlow) × Interp)
  | 0, _, _, _, _, _ => .error .outOfFuel
  | n + 1, cond, update, body, s, acc => do
    let (sc, s1) ←
      (match cond with
       | some c => do
         let (cv, s') ← eval n c s
         .ok ((match cv with
           | .Bool true => true
           | _ => false), s')
       | none => .ok (true, s) : Except RtErr (Bool × Interp))
    if sc = false then .ok ((strOpt acc, .normal), s1)
    else do
      let ((acc', ctl), s2) ← runBlock n body s1 acc
      match ctl with
      | .ret v => .ok ((strOpt acc', .ret v), s2)
      | .normal => do
        let s3 ←
          (match update with
           | some u => do
             let (_, s') ← execStmt n u s2
             .ok s'
           | none => .ok s2 : Except RtErr Interp)
        forLoop n cond update body s3 acc'

-- interpreter.rs: `execute_with_control`
def execStmt : Nat → Stmt → Interp → Except RtErr ((Option String × ControlFlow) × Interp)
  | 0, _, _ => .error .outOfFuel
  | n + 1, st, s =>
    match st with
    | .Let _ name e => do
      let (v, s1) ← eval n e s
      .ok ((none, .normal), { s1 with env := envInsert s1.env name v })
    | .Print e => do
      let (v, s1) ← eval n e s
      .ok ((some (valueDisplay v), .normal), s1)
    | .While cond body => whileLoop n cond body s ("")
    | .If cond thenB elifs elseB => do
      let (cv, s1) ← eval n cond s
      match cv with
      | .Bool true => do
        let ((out, ctl), s2) ← runBlock n thenB s1 ("")
        .ok ((strOpt out, ctl), s2)
      | _ => elifChain n elifs elseB s1
    | .Assign name e => do
      let (v, s1) ← eval n e s
      if (List.lookup name s1.env).isSome then
        .ok ((none, .normal), { s1 with env := envInsert s1.env name v })
      else .error (.fatal ("Cannot assign to undeclared variable: " ++ name))
    | .For init cond update body => do
      let s1 ←
        (match init with
         | some st' => do
           let (_, s') ← execStmt n st' s
           .ok s'
         | none => .ok s : Except RtErr Interp)
      forLoop n cond update body s1 ("")
    | .FunctionDef name params rt body =>
      .ok ((none, .normal),
        { s with functions := (name, ⟨params, rt, body⟩) :: s.functions })
    | .Return e? =>
      match e? with
      | none => .ok ((none, .ret none), s)
      | some e => do
        let (v, s1) ← eval n e s
        .ok ((none, .ret (some v)), s1)
    | .ExprStmt e => do
      let (_, s1) ← eval n e s
      if s1.outputBuffer.isEmpty then .ok ((none, .normal), s1)
      else .ok ((some (trimEnd s1.outputBuffer), .normal), { s1 with outputBuffer := "" })

-- interpreter.rs: the statement loop of `run` — `break` on a `Return` skips
-- the buffer flush that follows the match.
def runLoop : Nat → List Stmt → Interp → String → Except RtErr String
  | 0, _, _, _ => .error .outOfFuel
  | _ + 1, [], _, output => .ok output
  | n + 1, st :: rest, s, output => do
    let ((out, ctl), s1) ← execStmt n st s
    match out, ctl with
    | some r, .normal =>
      if s1.outputBuffer.isEmpty then runLoop n rest s1 (output ++ r ++ "\n")
      else
        runLoop n rest { s1 with outputBuffer := "" }
          (output ++ r ++ "\n" ++ s1.outputBuffer)
    | some r, .ret _ => .ok (output ++ r ++ "\n")
    | none, .ret _ => .ok output
    | none, .normal =>
      if s1.outputBuffer.isEmpty then runLoop n rest s1 output
      else runLoop n rest { s1 with outputBuffer := "" } (output ++ s1.outputBuffer)

end

-- interpreter.rs: `run` (`output.trim_end().to_string()` at the end)
def interpRun (fuel : Nat) (program : List Stmt) (s : Interp) : Except RtErr String :=
  (runLoop fuel program s ("")).map trimEnd

-- lib.rs: `pub enum FinnLangError`
inductive FinnLangError
  | ParseError (msg : String)
  | RuntimeError (msg : String)
deriving DecidableEq, Repr

-- `str::contains(pattern)` (substring test), used by the classifier.
def charsStartWith : List Char → List Char → Bool
  | _, [] => true
  | [], _ :: _ => false
  | c :: cs, p :: ps => c == p && charsStartWith cs ps

def charsContain : List Char → List Char → Bool
  | cs, pat =>
    charsStartWith cs pat ||
      (match cs with
       | [] => false
       | _ :: tl => charsContain tl pat)

def msgContains (s pat : String) : Bool := charsContain s.data pat.data

-- lib.rs: `run_finn_code` — the single `panic::catch_unwind` boundary,
-- classifying the caught message into ParseError/RuntimeError by content.
-- (`RtErr.outOfFuel` models a run that would never return; Rust's extra
-- fallback message for non-string panic payloads never arises here because
-- every modelled panic carries a string.)
def runFinnCode (fuel : Nat) (source : String) : Except FinnLangError String :=
  let res : Except RtErr String := do
    let program ← parseProgramLoop fuel (PState.new (Lexer.new source))
    interpRun fuel program Interp.new
  match res with
  | .ok output => .ok output
  | .error .outOfFuel => .error (.RuntimeError ("out of fuel"))
  | .error (.fatal msg) =>
    if msgContains msg ("Expected") || msgContains msg ("Unexpected") then
      .error (.ParseError msg)
    else .error (.RuntimeError msg)

-- Decomposition of a successful `Except` bind, used throughout the proofs.
theorem exceptBind_ok {α β : Type} {x : Except RtErr α} {f : α → Except RtErr β}
    {b : β} : x >>= f = Except.ok b ↔ ∃ a, x = Except.ok a ∧ f a = Except.ok b := by
  cases x <;> simp [Bind.bind, Except.bind]

-- Convenience entry point for parsing a single expression from source text
-- (used to state the precedence claims).
def parseExprTop (fuel : Nat) (src : String) : Except RtErr (Option Expr) :=
  (parseExpr fuel (PState.new (Lexer.new src))).map (fun x => x.1)

-- Two successive invocations of the pipeline boundary on the same source:
-- per lib.rs, each invocation constructs its own `Lexer::new`,
-- `Parser::new` and `Interpreter::new`, so the pair is two independent
-- evaluations of the same pure function.
def runTwice (fuel : Nat) (source : String) :
    Except FinnLangError String × Except FinnLangError String :=
  (runFinnCode fuel source, runFinnCode fuel source)

/-- Claim C1: the claim says an identifier at statement position is parsed
as a bare assignment exactly when a one-token scan-ahead over a clone of
the remaining stream shows `=` immediately following the identifier, and
that `let x = 10; print(x); x = x + 1; print(x);` prints "10" then "11".
The code disagrees with its own comment: the cloned lexer already stands
after the identifier (the parser pre-pulls `current`), so the first
`next_token` call — commented "skip the identifier" — consumes the `=`
itself and the test inspects the *second* token after the identifier.
Hence `x = x + 1;` is never recognized as an assignment (`isAssignment`
returns false although `=` immediately follows `x`); the statement degrades
into skip-and-recover plus the side-effect-free expression statement
`x + 1`, and the program prints "10" twice. -/
theorem c1_assignment_scanahead_bug :
    isAssignment (PState.new (Lexer.new ("x = x + 1;"))) = false ∧
    runFinnCode 64 ("let x = 10; print(x); x = x + 1; print(x);") = .ok ("10\n10") ∧
    ((("10\n10" : String) == ("10\n11")) = false) :=
  ⟨rfl, rfl, by decide⟩

/-- Claim C6: `print(5 / 0);` is a fatal RuntimeFailure, and a zero-divisor
division never produces a value: at every fuel it yields either the
fuel-exhaustion marker (the model of divergence, unreachable here beyond
fuel 1) or the division-by-zero panic; modulo by zero is likewise fatal;
modulo accepts only integer operands (matching doubles are rejected);
division accepts matching doubles and rejects mixed integer/double
operands. -/
theorem c6_div_mod_zero_fatal :
    runFinnCode 32 ("print(5 / 0);") = .error (.RuntimeError ("Division by zero")) ∧
    (∀ fuel s, eval fuel (.Div (.Number 5) (.Number 0)) s = .error .outOfFuel ∨
      eval fuel (.Div (.Number 5) (.Number 0)) s =
        .error (.fatal ("Division by zero"))) ∧
    (∀ n s, eval (n + 2) (.Mod (.Number 5) (.Number 0)) s =
      .error (.fatal ("Modulo by zero"))) ∧
    (∀ n s, eval (n + 2) (.Mod (.Double 1) (.Double 1)) s =
      .error (.fatal ("Unsupported modulo types"))) ∧
    (∀ n s, eval (n + 2) (.Div (.Double 1) (.Double 2)) s = .ok (.Double (1 / 2), s)) ∧
    (∀ n s, eval (n + 2) (.Div (.Number 1) (.Double 2)) s =
      .error (.fatal ("Unsupported division types"))) := by
  refine ⟨rfl, ?_, ?_, ?_, ?_, ?_⟩
  · intro fuel s
    match fuel with
    | 0 => exact Or.inl rfl
    | 1 => exact Or.inl (by simp [eval, Bind.bind, Except.bind])
    | n + 2 =>
      exact Or.inr (by simp [eval, Bind.bind, Except.bind, Except.map, divVals])
  · intro n s
    simp [eval, Bind.bind, Except.bind, Except.map, modVals]
  · intro n s
    simp [eval, Bind.bind, Except.bind, Except.map, modVals]
  · intro n s
    norm_num [eval, Bind.bind, Except.bind, Except.map, divVals]
  · intro n s
    simp [eval, Bind.bind, Except.bind, Except.map, divVals]

/-- Claim C7: logical `and`/`or` short-circuit with lazily checked
operands: for every right operand `e` (evaluated never, hence neither
failing nor type-checked), `false and e` yields `false` and `true or e`
yields `true`, leaving the state untouched. -/
theorem c7_short_circuit :
    (∀ n e s, eval (n + 2) (.And (.Bool false) e) s = .ok (.Bool false, s)) ∧
    (∀ n e s, eval (n + 2) (.Or (.Bool true) e) s = .ok (.Bool true, s)) := by
  constructor <;> intro n e s <;> simp [eval, Bind.bind, Except.bind]

/-- Claim C9: running the pipeline twice on the same source yields
identical results: each invocation builds its own lexer, parser state, AST
and interpreter (`runFinnCode` seeds itself from `Lexer.new`/`Interp.new`
alone), so the pair of results is two evaluations of one pure function of
the source string. -/
theorem c9_idempotent : ∀ fuel source, ∃ r, runTwice fuel source = (r, r) :=
  fun fuel source => ⟨runFinnCode fuel source, rfl⟩

/-- Claim C3: for every input string (and fuel bound) the boundary function
returns a structured result — a success payload, a ParseFailure or a
RuntimeFailure — never an uncaught abort; concretely, the parser's
array-literal panic surfaces as a classified ParseError and an evaluation
panic surfaces as a classified RuntimeError. -/
theorem c3_structured_result :
    (∀ fuel source, (∃ out, runFinnCode fuel source = .ok out) ∨
      (∃ msg, runFinnCode fuel source = .error (.ParseError msg)) ∨
      (∃ msg, runFinnCode fuel source = .error (.RuntimeError msg))) ∧
    runFinnCode 32 ("print([1);") =
      .error (.ParseError ("Expected closing bracket for array literal")) ∧
    runFinnCode 32 ("print(1 + true);") =
      .error (.RuntimeError ("Unsupported addition types")) := by
  refine ⟨?_, rfl, rfl⟩
  intro fuel source
  match h : runFinnCode fuel source with
  | .ok out => exact Or.inl ⟨out, rfl⟩
  | .error (.ParseError msg) => exact Or.inr (Or.inl ⟨msg, rfl⟩)
  | .error (.RuntimeError msg) => exact Or.inr (Or.inr ⟨msg, rfl⟩)

/-- Claim C8: the expression grammar layers precedence from logical-or at
the bottom through logical-and, equality, relational, additive,
multiplicative, unary and primary to postfix indexing, and every binary
layer associates to the left: representative parses for each adjacent pair
of layers and for left-chaining. -/
theorem c8_precedence :
    parseExprTop 32 ("1 + 2 * 3") =
      .ok (some (.Add (.Number 1) (.Mul (.Number 2) (.Number 3)))) ∧
    parseExprTop 32 ("1 - 2 - 3") =
      .ok (some (.Sub (.Sub (.Number 1) (.Number 2)) (.Number 3))) ∧
    parseExprTop 32 ("1 * 2 + 3") =
      .ok (some (.Add (.Mul (.Number 1) (.Number 2)) (.Number 3))) ∧
    parseExprTop 32 ("10 / 2 % 3") =
      .ok (some (.Mod (.Div (.Number 10) (.Number 2)) (.Number 3))) ∧
    parseExprTop 32 ("1 < 2 + 3") =
      .ok (some (.LessThan (.Number 1) (.Add (.Number 2) (.Number 3)))) ∧
    parseExprTop 32 ("1 == 2 < 3") =
      .ok (some (.Eq (.Number 1) (.LessThan (.Number 2) (.Number 3)))) ∧
    parseExprTop 32 ("1 != 2 == 3") =
      .ok (some (.Eq (.Neq (.Number 1) (.Number 2)) (.Number 3))) ∧
    parseExprTop 32 ("1 <= 2 >= 3") =
      .ok (some (.GreaterEqual (.LessEqual (.Number 1) (.Number 2)) (.Number 3))) ∧
    parseExprTop 32 ("a and b == c") =
      .ok (some (.And (.Var ("a")) (.Eq (.Var ("b")) (.Var ("c"))))) ∧
    parseExprTop 32 ("a or b and c") =
      .ok (some (.Or (.Var ("a")) (.And (.Var ("b")) (.Var ("c"))))) ∧
    parseExprTop 32 ("a or b or c") =
      .ok (some (.Or (.Or (.Var ("a")) (.Var ("b"))) (.Var ("c")))) ∧
    parseExprTop 32 ("not a and b") =
      .ok (some (.And (.Not (.Var ("a"))) (.Var ("b")))) ∧
    parseExprTop 32 ("-2 * 3") =
      .ok (some (.Mul (.Neg (.Number 2)) (.Number 3))) ∧
    parseExprTop 32 ("a[1][2]") =
      .ok (some (.Index (.Index (.Var ("a")) (.Number 1)) (.Number 2))) ∧
    parseExprTop 32 ("(1 + 2) * 3") =
      .ok (some (.Mul (.Add (.Number 1) (.Number 2)) (.Number 3))) :=
  ⟨rfl, rfl, rfl, rfl, rfl, rfl, rfl, rfl, rfl, rfl, rfl, rfl, rfl, rfl, rfl⟩

/-- Claim C5: for an array value bound to `a` and an `i64` index `i` outside
`[0, length)` — including every negative `i` (which the `i64 → usize` cast
wraps to at least 2^63, beyond any real array length, hence the bound
`length < 2^63`) — the indexed read `a[i]` evaluates to the string-typed
sentinel "Index out of bounds" and leaves the state untouched, while the
indexed assignment `a[i] = 0` with the same `i` is a fatal runtime
failure. -/
theorem c5_index_read_sentinel_write_fatal
    (vs : List Value) (i : Int) (s : Interp)
    (hv : List.lookup ("a") s.env = some (.Array vs))
    (hlen : (vs.length : Int) < 2 ^ 63)
    (hlo : -(2 ^ 63) ≤ i) (hhi : i < 2 ^ 63)
    (hout : i < 0 ∨ (vs.length : Int) ≤ i) :
    (∀ n, eval (n + 2) (.Index (.Var ("a")) (.Number i)) s =
      .ok (.Str ("Index out of bounds"), s)) ∧
    (∀ n, eval (n + 2) (.AssignIndex (.Var ("a")) (.Number i) (.Number 0)) s =
      .error (.fatal ("Index out of bounds"))) := by
  have key : vs.length ≤ asUsize i := by
    unfold asUsize
    rcases hout with hneg | hge
    · omega
    · omega
  have hnone : vs[asUsize i]? = none := by
    rw [← List.get?_eq_getElem?]
    exact List.get?_eq_none.mpr key
  have hlt : ¬ asUsize i < vs.length := by omega
  constructor <;> intro n
  · simp [eval, Bind.bind, Except.bind, hv, hnone]
  · simp [eval, Bind.bind, Except.bind, hv, hlt]

theorem c5_witness :
    eval 5 (.Index (.Var ("a")) (.Number (-1)))
      { env := [(("a", Value.Array [.Int 1, .Int 2, .Int 3]))], functions := [],
        outputBuffer := "" } =
      .ok (.Str ("Index out of bounds"),
        { env := [(("a", Value.Array [.Int 1, .Int 2, .Int 3]))], functions := [],
          outputBuffer := "" }) ∧
    eval 5 (.AssignIndex (.Var ("a")) (.Number (-1)) (.Number 0))
      { env := [(("a", Value.Array [.Int 1, .Int 2, .Int 3]))], functions := [],
        outputBuffer := "" } =
      .error (.fatal ("Index out of bounds")) := by
  have h := c5_index_read_sentinel_write_fatal [.Int 1, .Int 2, .Int 3] (-1)
    { env := [(("a", Value.Array [.Int 1, .Int 2, .Int 3]))], functions := [],
      outputBuffer := "" }
    rfl (by decide) (by decide) (by decide) (Or.inl (by decide))
  exact ⟨h.1 3, h.2 3⟩

/-- Claim C2: a `Return` raised anywhere in a statement block propagates out
of the whole block without executing the statements that follow it
(appending further siblings to the block changes neither the result nor the
final state), and concretely
`funct f(): int { while (true) { return 1; } return 2; } print(f());`
terminates the call at the nested `return 1` and prints "1". -/
theorem c2_return_unwinds :
    (∀ (stmts : List Stmt) (n : Nat) (rest : List Stmt) (s : Interp)
      (acc out : String) (v : Option Value) (s' : Interp),
      runBlock n stmts s acc = .ok ((out, .ret v), s') →
      runBlock n (stmts ++ rest) s acc = .ok ((out, .ret v), s')) ∧
    interpRun 64 [.FunctionDef ("f") [] (some .int)
        [.While (.Bool true) [.Return (some (.Number 1))], .Return (some (.Number 2))],
      .Print (.FunctionCall ("f") [])] Interp.new = .ok ("1") := by
  constructor
  · intro stmts
    induction stmts with
    | nil =>
      intro n rest s acc out v s' h
      match n with
      | 0 => simp [runBlock] at h
      | m + 1 => simp [runBlock] at h
    | cons st tl ih =>
      intro n rest s acc out v s' h
      match n with
      | 0 => simp [runBlock] at h
      | m + 1 =>
        rw [List.cons_append]
        simp only [runBlock, exceptBind_ok] at h ⊢
        obtain ⟨⟨⟨o, ctl⟩, s1⟩, hex, h⟩ := h
        refine ⟨⟨⟨o, ctl⟩, s1⟩, hex, ?_⟩
        cases ctl with
        | ret w => exact h
        | normal => exact ih m rest s1 _ out v s' h
  · rfl

theorem c2_witness :
    runBlock 8 ([.Return (some (.Number 1))] ++ [.Print (.Number 2)]) Interp.new ("") =
      .ok ((("" : String), .ret (some (.Int 1))), Interp.new) :=
  c2_return_unwinds.1 [.Return (some (.Number 1))] 8 [.Print (.Number 2)]
    Interp.new ("") ("") (some (.Int 1)) Interp.new rfl

-- Frame property of expression evaluation, proved for `eval` together with
-- its two mutual companions that thread the caller state (`evalList` for
-- array literals, `bindArgs` for call arguments): a successful evaluation
-- can only append to the output buffer, never touch the variable
-- environment or the function table.
theorem evalFrame : ∀ n : Nat,
    (∀ e s v s', eval n e s = .ok (v, s') →
      s'.env = s.env ∧ s'.functions = s.functions) ∧
    (∀ es s vs s', evalList n es s = .ok (vs, s') →
      s'.env = s.env ∧ s'.functions = s.functions) ∧
    (∀ ps args s acc bs s', bindArgs n ps args s acc = .ok (bs, s') →
      s'.env = s.env ∧ s'.functions = s.functions) := by
  intro n
  induction n with
  | zero =>
    refine ⟨?_, ?_, ?_⟩
    · intro e s v s' h
      simp [eval] at h
    · intro es s vs s' h
      simp [evalList] at h
    · intro ps args s acc bs s' h
      simp [bindArgs] at h
  | succ n ih =>
    obtain ⟨ihE, ihL, ihB⟩ := ih
    refine ⟨?_, ?_, ?_⟩
    · intro e s v s' h
      cases e with
      | Number nv =>
        simp only [eval, Except.ok.injEq, Prod.mk.injEq] at h
        obtain ⟨-, rfl⟩ := h
        exact ⟨rfl, rfl⟩
      | Bool b =>
        simp only [eval, Except.ok.injEq, Prod.mk.injEq] at h
        obtain ⟨-, rfl⟩ := h
        exact ⟨rfl, rfl⟩
      | StrLiteral str =>
        simp only [eval, Except.ok.injEq, Prod.mk.injEq] at h
        obtain ⟨-, rfl⟩ := h
        exact ⟨rfl, rfl⟩
      | Double d =>
        simp only [eval, Except.ok.injEq, Prod.mk.injEq] at h
        obtain ⟨-, rfl⟩ := h
        exact ⟨rfl, rfl⟩
      | Var name =>
        simp only [eval] at h
        split at h
        · simp only [Except.ok.injEq, Prod.mk.injEq] at h
          obtain ⟨-, rfl⟩ := h
          exact ⟨rfl, rfl⟩
        · simp at h
      | ArrayLiteral elems =>
        simp only [eval, exceptBind_ok] at h
        obtain ⟨⟨vs1, s1⟩, h1, h⟩ := h
        simp only [Except.ok.injEq, Prod.mk.injEq] at h
        obtain ⟨-, rfl⟩ := h
        exact ihL elems s vs1 _ h1
      | Index arrE idxE =>
        simp only [eval, exceptBind_ok] at h
        obtain ⟨⟨av, s1⟩, h1, h⟩ := h
        obtain ⟨⟨iv, s2⟩, h2, h⟩ := h
        have A := ihE arrE s av s1 h1
        have B := ihE idxE s1 iv s2 h2
        split at h
        · simp only [Except.ok.injEq, Prod.mk.injEq] at h
          obtain ⟨-, rfl⟩ := h
          exact ⟨B.1.trans A.1, B.2.trans A.2⟩
        · simp at h
      | AssignIndex arrE idxE valE =>
        simp only [eval, exceptBind_ok] at h
        obtain ⟨⟨av, s1⟩, h1, h⟩ := h
        obtain ⟨⟨iv, s2⟩, h2, h⟩ := h
        obtain ⟨⟨nv, s3⟩, h3, h⟩ := h
        have A := ihE arrE s av s1 h1
        have B := ihE idxE s1 iv s2 h2
        have C := ihE valE s2 nv s3 h3
        split at h
        · split at h
          · simp only [Except.ok.injEq, Prod.mk.injEq] at h
            obtain ⟨-, rfl⟩ := h
            exact ⟨C.1.trans (B.1.trans A.1), C.2.trans (B.2.trans A.2)⟩
          · simp at h
        · simp at h
      | Add l r =>
        simp only [eval, exceptBind_ok] at h
        obtain ⟨⟨a, s1⟩, h1, h⟩ := h
        obtain ⟨⟨b, s2⟩, h2, h⟩ := h
        have A := ihE l s a s1 h1
        have B := ihE r s1 b s2 h2
        cases hF : addVals a b <;> rw [hF] at h <;> simp [Except.map] at h
        obtain ⟨-, rfl⟩ := h
        exact ⟨B.1.trans A.1, B.2.trans A.2⟩
      | Sub l r =>
        simp only [eval, exceptBind_ok] at h
        obtain ⟨⟨a, s1⟩, h1, h⟩ := h
        obtain ⟨⟨b, s2⟩, h2, h⟩ := h
        have A := ihE l s a s1 h1
        have B := ihE r s1 b s2 h2
        cases hF : subVals a b <;> rw [hF] at h <;> simp [Except.map] at h
        obtain ⟨-, rfl⟩ := h
        exact ⟨B.1.trans A.1, B.2.trans A.2⟩
      | Mul l r =>
        simp only [eval, exceptBind_ok] at h
        obtain ⟨⟨a, s1⟩, h1, h⟩ := h
        obtain ⟨⟨b, s2⟩, h2, h⟩ := h
        have A := ihE l s a s1 h1
        have B := ihE r s1 b s2 h2
        cases hF : mulVals a b <;> rw [hF] at h <;> simp [Except.map] at h
        obtain ⟨-, rfl⟩ := h
        exact ⟨B.1.trans A.1, B.2.trans A.2⟩
      | Div l r =>
        simp only [eval, exceptBind_ok] at h
        obtain ⟨⟨a, s1⟩, h1, h⟩ := h
        obtain ⟨⟨b, s2⟩, h2, h⟩ := h
        have A := ihE l s a s1 h1
        have B := ihE r s1 b s2 h2
        cases hF : divVals a b <;> rw [hF] at h <;> simp [Except.map] at h
        obtain ⟨-, rfl⟩ := h
        exact ⟨B.1.trans A.1, B.2.trans A.2⟩
      | Mod l r =>
        simp only [eval, exceptBind_ok] at h
        obtain ⟨⟨a, s1⟩, h1, h⟩ := h
        obtain ⟨⟨b, s2⟩, h2, h⟩ := h
        have A := ihE l s a s1 h1
        have B := ihE r s1 b s2 h2
        cases hF : modVals a b <;> rw [hF] at h <;> simp [Except.map] at h
        obtain ⟨-, rfl⟩ := h
        exact ⟨B.1.trans A.1, B.2.trans A.2⟩
      | LessThan l r =>
        simp only [eval, exceptBind_ok] at h
        obtain ⟨⟨a, s1⟩, h1, h⟩ := h
        obtain ⟨⟨b, s2⟩, h2, h⟩ := h
        have A := ihE l s a s1 h1
        have B := ihE r s1 b s2 h2
        cases hF : ltVals a b <;> rw [hF] at h <;> simp [Except.map] at h
        obtain ⟨-, rfl⟩ := h
        exact ⟨B.1.trans A.1, B.2.trans A.2⟩
      | GreaterThan l r =>
        simp only [eval, exceptBind_ok] at h
        obtain ⟨⟨a, s1⟩, h1, h⟩ := h
        obtain ⟨⟨b, s2⟩, h2, h⟩ := h
        have A := ihE l s a s1 h1
        have B := ihE r s1 b s2 h2
        cases hF : gtVals a b <;> rw [hF] at h <;> simp [Except.map] at h
        obtain ⟨-, rfl⟩ := h
        exact ⟨B.1.trans A.1, B.2.trans A.2⟩
      | LessEqual l r =>
        simp only [eval, exceptBind_ok] at h
        obtain ⟨⟨a, s1⟩, h1, h⟩ := h
        obtain ⟨⟨b, s2⟩, h2, h⟩ := h
        have A := ihE l s a s1 h1
        have B := ihE r s1 b s2 h2
        cases hF : leVals a b <;> rw [hF] at h <;> simp [Except.map] at h
        obtain ⟨-, rfl⟩ := h
        exact ⟨B.1.trans A.1, B.2.trans A.2⟩
      | GreaterEqual l r =>
        simp only [eval, exceptBind_ok] at h
        obtain ⟨⟨a, s1⟩, h1, h⟩ := h
        obtain ⟨⟨b, s2⟩, h2, h⟩ := h
        have A := ihE l s a s1 h1
        have B := ihE r s1 b s2 h2
        cases hF : geVals a b <;> rw [hF] at h <;> simp [Except.map] at h
        obtain ⟨-, rfl⟩ := h
        exact ⟨B.1.trans A.1, B.2.trans A.2⟩
      | Eq l r =>
        simp only [eval, exceptBind_ok] at h
        obtain ⟨⟨a, s1⟩, h1, h⟩ := h
        obtain ⟨⟨b, s2⟩, h2, h⟩ := h
        have A := ihE l s a s1 h1
        have B := ihE r s1 b s2 h2
        simp only [Except.ok.injEq, Prod.mk.injEq] at h
        obtain ⟨-, rfl⟩ := h
        exact ⟨B.1.trans A.1, B.2.trans A.2⟩
      | Neq l r =>
        simp only [eval, exceptBind_ok] at h
        obtain ⟨⟨a, s1⟩, h1, h⟩ := h
        obtain ⟨⟨b, s2⟩, h2, h⟩ := h
        have A := ihE l s a s1 h1
        have B := ihE r s1 b s2 h2
        simp only [Except.ok.injEq, Prod.mk.injEq] at h
        obtain ⟨-, rfl⟩ := h
        exact ⟨B.1.trans A.1, B.2.trans A.2⟩
      | And l r =>
        simp only [eval, exceptBind_ok] at h
        obtain ⟨⟨a, s1⟩, h1, h⟩ := h
        have A := ihE l s a s1 h1
        split at h
        · simp only [Except.ok.injEq, Prod.mk.injEq] at h
          obtain ⟨-, rfl⟩ := h
          exact A
        · rw [exceptBind_ok] at h
          obtain ⟨⟨b, s2⟩, h2, h⟩ := h
          have B := ihE r s1 b s2 h2
          split at h
          · simp only [Except.ok.injEq, Prod.mk.injEq] at h
            obtain ⟨-, rfl⟩ := h
            exact ⟨B.1.trans A.1, B.2.trans A.2⟩
          · simp at h
        · simp at h
      | Or l r =>
        simp only [eval, exceptBind_ok] at h
        obtain ⟨⟨a, s1⟩, h1, h⟩ := h
        have A := ihE l s a s1 h1
        split at h
        · simp only [Except.ok.injEq, Prod.mk.injEq] at h
          obtain ⟨-, rfl⟩ := h
          exact A
        · rw [exceptBind_ok] at h
          obtain ⟨⟨b, s2⟩, h2, h⟩ := h
          have B := ihE r s1 b s2 h2
          split at h
          · simp only [Except.ok.injEq, Prod.mk.injEq] at h
            obtain ⟨-, rfl⟩ := h
            exact ⟨B.1.trans A.1, B.2.trans A.2⟩
          · simp at h
        · simp at h
      | Not e1 =>
        simp only [eval, exceptBind_ok] at h
        obtain ⟨⟨a, s1⟩, h1, h⟩ := h
        have A := ihE e1 s a s1 h1
        split at h
        · simp only [Except.ok.injEq, Prod.mk.injEq] at h
          obtain ⟨-, rfl⟩ := h
          exact A
        · simp at h
      | Neg e1 =>
        simp only [eval, exceptBind_ok] at h
        obtain ⟨⟨a, s1⟩, h1, h⟩ := h
        have A := ihE e1 s a s1 h1
        split at h
        · simp only [Except.ok.injEq, Prod.mk.injEq] at h
          obtain ⟨-, rfl⟩ := h
          exact A
        · simp only [Except.ok.injEq, Prod.mk.injEq] at h
          obtain ⟨-, rfl⟩ := h
          exact A
        · simp at h
      | FunctionCall name args =>
        simp only [eval] at h
        split at h
        · simp at h
        · split at h
          · simp at h
          · simp only [exceptBind_ok] at h
            obtain ⟨⟨bindings, sc⟩, hB, h⟩ := h
            obtain ⟨⟨acc, rv, cs⟩, hC, h⟩ := h
            simp only [Except.ok.injEq, Prod.mk.injEq] at h
            obtain ⟨-, rfl⟩ := h
            have B := ihB _ args s [] bindings sc hB
            exact ⟨B.1, B.2⟩
    · intro es s vs s' h
      cases es with
      | nil =>
        simp only [evalList, Except.ok.injEq, Prod.mk.injEq] at h
        obtain ⟨-, rfl⟩ := h
        exact ⟨rfl, rfl⟩
      | cons e es' =>
        simp only [evalList, exceptBind_ok] at h
        obtain ⟨⟨a, s1⟩, h1, h⟩ := h
        obtain ⟨⟨tl, s2⟩, h2, h⟩ := h
        simp only [Except.ok.injEq, Prod.mk.injEq] at h
        obtain ⟨-, rfl⟩ := h
        have A := ihE e s a s1 h1
        have B := ihL es' s1 tl s2 h2
        exact ⟨B.1.trans A.1, B.2.trans A.2⟩
    · intro ps args s acc bs s' h
      cases ps with
      | nil =>
        simp only [bindArgs, Except.ok.injEq, Prod.mk.injEq] at h
        obtain ⟨-, rfl⟩ := h
        exact ⟨rfl, rfl⟩
      | cons p ps' =>
        obtain ⟨pname, pty⟩ := p
        cases args with
        | nil =>
          simp only [bindArgs, Except.ok.injEq, Prod.mk.injEq] at h
          obtain ⟨-, rfl⟩ := h
          exact ⟨rfl, rfl⟩
        | cons a rest =>
          simp only [bindArgs, exceptBind_ok] at h
          obtain ⟨⟨av, s1⟩, h1, h⟩ := h
          have A := ihE a s av s1 h1
          have B := ihB ps' rest s1 (envInsert acc pname av) bs s' h
          exact ⟨B.1.trans A.1, B.2.trans A.2⟩

/-- Claim C10: a successful expression evaluation leaves the interpreter's
variable environment and function table exactly as they were (only the Let,
Assign and FunctionDef statement arms write to them); in particular the
in-range indexed assignment `arr[0] = 9` evaluates to the updated array
value while the variable `arr` still holds its old elements afterwards. -/
theorem c10_eval_frame :
    (∀ n e s v s', eval n e s = .ok (v, s') →
      s'.env = s.env ∧ s'.functions = s.functions) ∧
    eval 8 (.AssignIndex (.Var ("arr")) (.Number 0) (.Number 9))
      { env := [(("arr", Value.Array [.Int 1, .Int 2]))], functions := [],
        outputBuffer := "" } =
      .ok (.Array [.Int 9, .Int 2],
        { env := [(("arr", Value.Array [.Int 1, .Int 2]))], functions := [],
          outputBuffer := "" }) :=
  ⟨fun n e s v s' h => (evalFrame n).1 e s v s' h, rfl⟩

theorem c10_witness :
    ({ env := [],
       functions := [(("g",
         ({ params := [], returnType := none,
            body := [.Print (.Number 7)] } : FunctionDef)))],
       outputBuffer := "7\n" } : Interp).env =
      ({ env := [],
         functions := [(("g",
           ({ params := [], returnType := none,
              body := [.Print (.Number 7)] } : FunctionDef)))],
         outputBuffer := "" } : Interp).env ∧
    ({ env := [],
       functions := [(("g",
         ({ params := [], returnType := none,
            body := [.Print (.Number 7)] } : FunctionDef)))],
       outputBuffer := "7\n" } : Interp).functions =
      ({ env := [],
         functions := [(("g",
           ({ params := [], returnType := none,
              body := [.Print (.Number 7)] } : FunctionDef)))],
         outputBuffer := "" } : Interp).functions :=
  c10_eval_frame.1 8 (.FunctionCall ("g") [])
    { env := [],
      functions := [(("g",
        ({ params := [], returnType := none,
           body := [.Print (.Number 7)] } : FunctionDef)))],
      outputBuffer := "" }
    (.Int 0)
    { env := [],
      functions := [(("g",
        ({ params := [], returnType := none,
           body := [.Print (.Number 7)] } : FunctionDef)))],
      outputBuffer := "7\n" }
    rfl

-- Updating the output buffer to its current value is the identity.
theorem Interp.etaBuffer (s : Interp) (h : s.outputBuffer = ("")) :
    ({ s with outputBuffer := ("") } : Interp) = s := by
  cases s
  simp_all

/-- Modelled from the spec (amended form of claim C4's output description):
the success output is the concatenation, over the executed top-level
statements in order, of one chunk per statement — the statement's own
reported output with a trailing newline, followed by whatever function-call
output was buffered while that statement ran — stopping at a top-level
`Return` (whose statement contributes only its reported output; a
buffered-but-unflushed remainder is discarded); the final result is this
concatenation with trailing whitespace trimmed. -/
def runChunks : Nat → List Stmt → Interp → Except RtErr String
  | 0, _, _ => .error .outOfFuel
  | _ + 1, [], _ => .ok ("")
  | n + 1, st :: rest, s => do
    let ((out, ctl), s1) ← execStmt n st s
    match ctl with
    | .ret _ =>
      .ok (match out with
        | some o => o ++ "\n"
        | none => "")
    | .normal => do
      let tail ← runChunks n rest { s1 with outputBuffer := ("") }
      .ok (((match out with
        | some o => o ++ "\n"
        | none => "") ++ s1.outputBuffer) ++ tail)

-- The accumulator loop of `run` computes exactly the chunk concatenation.
theorem runLoop_eq_chunks : ∀ (prog : List Stmt) (n : Nat) (s : Interp) (acc : String),
    runLoop n prog s acc = (runChunks n prog s).map (fun c => acc ++ c) := by
  intro prog
  induction prog with
  | nil =>
    intro n s acc
    match n with
    | 0 => rfl
    | m + 1 => simp [runLoop, runChunks, Except.map, String.append_empty]
  | cons st rest ih =>
    intro n s acc
    match n with
    | 0 => rfl
    | m + 1 =>
      simp only [runLoop, runChunks]
      cases hex : execStmt m st s with
      | error e => simp [Bind.bind, Except.bind, Except.map]
      | ok res =>
        obtain ⟨⟨out, ctl⟩, s1⟩ := res
        simp only [Bind.bind, Except.bind]
        cases ctl with
        | ret w =>
          cases out with
          | some r => simp [Except.map, String.append_assoc]
          | none => simp [Except.map, String.append_empty]
        | normal =>
          cases out with
          | some r =>
            by_cases hb : s1.outputBuffer.isEmpty
            · have hempty : s1.outputBuffer = ("") := by
                simpa [String.isEmpty_iff] using hb
              simp only [hb, if_true, Interp.etaBuffer s1 hempty, ih]
              cases hc : runChunks m rest s1 with
              | error e => simp [Except.map]
              | ok tail =>
                simp [Except.map, hempty, String.append_empty, String.append_assoc]
            · simp only [hb, if_false, ih]
              cases hc : runChunks m rest { s1 with outputBuffer := ("") } with
              | error e => simp [Except.map]
              | ok tail => simp [Except.map, String.append_assoc]
          | none =>
            by_cases hb : s1.outputBuffer.isEmpty
            · have hempty : s1.outputBuffer = ("") := by
                simpa [String.isEmpty_iff] using hb
              simp only [hb, if_true, Interp.etaBuffer s1 hempty, ih]
              cases hc : runChunks m rest s1 with
              | error e => simp [Except.map]
              | ok tail =>
                simp [Except.map, hempty, String.empty_append, String.append_empty,
                  String.append_assoc]
            · simp only [hb, if_false, ih]
              cases hc : runChunks m rest { s1 with outputBuffer := ("") } with
              | error e => simp [Except.map]
              | ok tail =>
                simp [Except.map, String.empty_append, String.append_assoc]

/-- Claim C4 (counterexample): the claim says the success result is exactly
the newline-separated concatenation of the produced lines with no trailing
newline.  For the program `print("a ");` the single produced line is the
two-character string "a ", but `run` ends with `trim_end()`, which removes
*all* trailing whitespace, so the pipeline returns "a" — not the claimed
concatenation "a ". -/
theorem c4_counterexample :
    interpRun 16 [.Print (.StrLiteral ("a "))] Interp.new = .ok ("a") ∧
    (((("a") : String) == ("a ")) = false) :=
  ⟨rfl, by decide⟩

/-- Claim C4 (amended): on success `run` returns, for the executed
top-level statements in order, the concatenation of one chunk per
statement — the statement's reported output plus newline followed by the
function-call output buffered during that statement (flushed at the
statement boundary, after the statement's own lines) — stopping at a
top-level `Return` (which discards any still-unflushed buffered output),
with trailing whitespace (in particular the final newline) trimmed from
the result. -/
theorem c4_output_joined : ∀ fuel prog s,
    interpRun fuel prog s = (runChunks fuel prog s).map trimEnd := by
  intro fuel prog s
  unfold interpRun
  rw [runLoop_eq_chunks]
  cases runChunks fuel prog s with
  | error e => rfl
  | ok c => simp [Except.map, String.empty_append]
